import Mathlib

/-!
Verification of the modelplex routing and streaming-translation core.

This development shallowly embeds the request-routing and streaming
translation pipeline of the modelplex gateway (Go) and proves properties
of the embedded definitions.

Conventions of the embedding:
* Go strings are modelled as `List Char` (`GoStr`); Go byte/rune details
  that the claims do not touch are not modelled.
* Dynamic JSON values (`interface{}` produced by `json.Unmarshal`) are
  modelled by the inductive type `Json`.
* Where a streaming function is generic in the payload (the chunk values
  flowing through `interface{}` channels), the embedding is parameterized
  by the payload type and by the outcome of `json.Unmarshal` /
  `json.Marshal` on it, since the Go code only branches on
  success/failure of those calls.
* HTTP writes are modelled on the success path: writes to the client do
  not fail, and the response writer supports flushing.  Network I/O
  itself (dialing the upstream) is outside the embedding; functions take
  the upstream's observable response (status, body, body lines) as
  input.
-/

namespace Modelplex

/-- Go strings, modelled as lists of characters. -/
abbrev GoStr := List Char

/-- The characters of a Lean string literal, used to write `GoStr` constants. -/
def gs (s : String) : GoStr := s.data

/-- Model of `strings.HasPrefix s pre` from the Go standard library. -/
def goStartsWith (s pre : GoStr) : Bool := pre.isPrefixOf s

/-- Model of `strings.TrimPrefix s pre` from the Go standard library:
strips `pre` from the front of `s` exactly once when present. -/
def goStripStart (s pre : GoStr) : GoStr :=
  if goStartsWith s pre then s.drop pre.length else s

/-- Model of `strings.TrimSpace` from the Go standard library: removes
leading and trailing whitespace. -/
def goTrimSpace (s : GoStr) : GoStr :=
  ((s.dropWhile Char.isWhitespace).reverse.dropWhile Char.isWhitespace).reverse

/-- Dynamic JSON values, the model of Go `interface{}` data produced by
`encoding/json` decoding. Objects keep their fields as an ordered
association list. -/
inductive Json where
  | str : String → Json
  | num : Int → Json
  | bool : Bool → Json
  | null : Json
  | arr : List Json → Json
  | obj : List (String × Json) → Json
deriving Repr

/-- Field lookup in a JSON object / Go map: the value stored at key `k`,
or `none` when the key is absent (Go: the nil interface). -/
def Json.getField (j : Json) (k : String) : Option Json :=
  match j with
  | .obj fs => (fs.find? (fun f => f.1 == k)).map (·.2)
  | _ => none

/-!
OpenAI-shaped proxy layer: `normalizeModel`, from
`internal/proxy/proxy.go` and `internal/proxy/interfaces.go` (the two
variants are textually identical).  The Go function strips the literal
prefix `modelplex-` when present and otherwise returns the model id
unchanged.
-/

/-- The literal model-id prefix `"modelplex-"`. -/
def modelplexTag : GoStr := gs "modelplex-"

/-- Model of `OpenAIProxy.normalizeModel`. -/
def normalizeModel (model : GoStr) : GoStr :=
  if goStartsWith model modelplexTag then goStripStart model modelplexTag
  else model

/-! Helper lemmas about the Go string operations. -/

theorem isPrefixOf_append (pre s : GoStr) : pre.isPrefixOf (pre ++ s) = true := by
  induction pre with
  | nil => simp
  | cons c cs ih => simp [List.isPrefixOf, ih]

theorem goStartsWith_append (pre s : GoStr) : goStartsWith (pre ++ s) pre = true := by
  simp [goStartsWith, isPrefixOf_append pre s]

theorem goStripStart_append (pre s : GoStr) : goStripStart (pre ++ s) pre = s := by
  simp [goStripStart, goStartsWith, isPrefixOf_append, List.drop_left]

/-- C8: For every incoming request, a model string beginning with the
literal prefix `modelplex-` has that prefix stripped exactly once (so
`"modelplex-" ++ rest` resolves to `rest`, and in particular
`"modelplex-"` alone resolves to the empty string), and every model
string not beginning with that prefix passes through unchanged. -/
theorem c8_normalizeModel_strips_tag_once (s : GoStr) :
    normalizeModel (modelplexTag ++ s) = s ∧
    (goStartsWith s modelplexTag = false → normalizeModel s = s) ∧
    normalizeModel modelplexTag = [] := by
  refine ⟨?_, ?_, ?_⟩
  · simp [normalizeModel, goStartsWith_append, goStripStart_append]
  · intro h
    simp [normalizeModel, h]
  · have h : goStripStart modelplexTag modelplexTag = [] := by
      have := goStripStart_append modelplexTag []
      rwa [List.append_nil] at this
    have h2 : goStartsWith modelplexTag modelplexTag = true := by
      have := goStartsWith_append modelplexTag []
      rwa [List.append_nil] at this
    simp [normalizeModel, h2, h]

/-- Witness for C8 at concrete inputs: `"modelplex-gpt-4"` resolves to
`"gpt-4"`, `"gpt-4"` passes through unchanged, and `"modelplex-"`
resolves to the empty string. -/
theorem c8_normalizeModel_strips_tag_once_witness :
    normalizeModel (modelplexTag ++ gs "gpt-4") = gs "gpt-4" ∧
    (goStartsWith (gs "gpt-4") modelplexTag = false →
      normalizeModel (gs "gpt-4") = gs "gpt-4") ∧
    normalizeModel modelplexTag = [] :=
  c8_normalizeModel_strips_tag_once (gs "gpt-4")

/-!
Shared streaming engine, from `src/unnamed/part_005`
(`internal/providers/streaming.go`): `parseSSELine`,
`parseStreamingLine` and `processStreamingResponse`.

The engine is generic in the chunk payload: chunks travel as
`interface{}` values and the Go code branches only on whether
`json.Unmarshal` succeeded and whether the optional transformer returned
nil.  The embedding is therefore parameterized by the payload type `α`,
by `unmarshal` (the outcome of `json.Unmarshal` on the text of a frame)
and by the optional transformer.  The `ctx.Done()` cancellation branch
is not exercised (the embedding models the run in which the consumer
reads the whole channel).
-/

/-- Configuration of the shared streaming engine
(`StreamingRequestConfig` in the Go source), restricted to the fields
the body-processing functions consult. -/
structure StreamingRequestConfig (α : Type) where
  useSSE : Bool
  unmarshal : GoStr → Option α
  transformer : Option (α → Option α)

/-- Outcome of `parseSSELine`: in the Go source the function returns a
chunk together with an error that is `"skip"` for non-`data:` lines,
`"done"` for the `[DONE]` marker, or the `json.Unmarshal` error. -/
inductive SSELineResult (α : Type) where
  | skipLine : SSELineResult α
  | doneLine : SSELineResult α
  | parseFail : SSELineResult α
  | ok : α → SSELineResult α

/-- The literal `"data: "` SSE field tag. -/
def sseDataTag : GoStr := gs "data: "

/-- The literal `"[DONE]"` SSE terminator payload. -/
def sseDoneLit : GoStr := gs "[DONE]"

/-- Model of `parseSSELine` (part_005, lines 136-152). -/
def parseSSELine {α : Type} (unmarshal : GoStr → Option α) (line : GoStr) :
    SSELineResult α :=
  if goStartsWith line sseDataTag then
    let d := goStripStart line sseDataTag
    if d = sseDoneLit then .doneLine
    else
      match unmarshal d with
      | some c => .ok c
      | none => .parseFail
  else .skipLine

/-- Model of `parseStreamingLine` (part_005, lines 100-133).  The Go
function collapses the `done`, `skip` and parse-failure outcomes of
`parseSSELine` into the same `(nil, false)` return value; a configured
transformer returning nil also yields `(nil, false)`. -/
def parseStreamingLine {α : Type} (cfg : StreamingRequestConfig α) (line : GoStr) :
    Option α :=
  let parsed : Option α :=
    if cfg.useSSE then
      match parseSSELine cfg.unmarshal line with
      | .ok c => some c
      | _ => none
    else cfg.unmarshal line
  match parsed with
  | none => none
  | some c =>
    match cfg.transformer with
    | none => some c
    | some t => t c

/-- Model of `processStreamingResponse` (part_005, lines 75-98): the
chunk values sent on the stream channel, given the trimmed scanner
lines of the upstream body. -/
def processStreamingResponse {α : Type} (cfg : StreamingRequestConfig α) :
    List GoStr → List α
  | [] => []
  | l :: ls =>
    let line := goTrimSpace l
    if line = [] then processStreamingResponse cfg ls
    else
      match parseStreamingLine cfg line with
      | none => processStreamingResponse cfg ls
      | some c => c :: processStreamingResponse cfg ls

/-- Model of the inline SSE scanner loop of
`OpenAIProvider.makeStreamingRequest`
(`internal/providers/openai.go`, lines 296-333).  Unlike the shared
engine, this loop returns (ending the goroutine and closing the
channel) when it sees the `[DONE]` payload. -/
def openaiStreamChunks {α : Type} (unmarshal : GoStr → Option α) :
    List GoStr → List α
  | [] => []
  | l :: ls =>
    let line := goTrimSpace l
    if line = [] then openaiStreamChunks unmarshal ls
    else if goStartsWith line sseDataTag then
      let d := goStripStart line sseDataTag
      if d = sseDoneLit then []
      else
        match unmarshal d with
        | none => openaiStreamChunks unmarshal ls
        | some c => c :: openaiStreamChunks unmarshal ls
    else openaiStreamChunks unmarshal ls

/-!
The proxy's SSE writer, from `internal/proxy/proxy.go` /
`internal/proxy/interfaces.go` (`writeSSEResponse`, identical in both
variants).  The writer sets the SSE headers and status 200, writes one
`data: <json>\n\n` frame per chunk whose `json.Marshal` succeeds
(marshal failures are logged and skipped), and finally writes a single
`data: [DONE]\n\n` frame.  Writes are modelled on the success path as
the ordered list of strings written to the response body.
-/

/-- One caller-facing SSE frame carrying `payload`. -/
def dataFrame (payload : GoStr) : GoStr := gs "data: " ++ payload ++ gs "\n\n"

/-- The terminating frame written after the chunk channel closes. -/
def doneFrame : GoStr := gs "data: [DONE]\n\n"

/-- The write loop of `writeSSEResponse`: frames for the chunks whose
marshalling succeeds, then the `[DONE]` frame. -/
def writeSSEFrames {α : Type} (marshal : α → Option GoStr) : List α → List GoStr
  | [] => [doneFrame]
  | c :: cs =>
    match marshal c with
    | none => writeSSEFrames marshal cs
    | some j => dataFrame j :: writeSSEFrames marshal cs

/-- The observable output of `writeSSEResponse`: response status,
response headers, and the ordered body writes. -/
structure SSEOutput where
  status : Nat
  headers : List (String × String)
  writes : List GoStr
deriving Repr

/-- The three SSE headers set by `writeSSEResponse`. -/
def sseHeaders : List (String × String) :=
  [("Content-Type", "text/event-stream"),
   ("Cache-Control", "no-cache"),
   ("Connection", "keep-alive")]

/-- Model of `writeSSEResponse`. -/
def writeSSEResponse {α : Type} (marshal : α → Option GoStr) (chunks : List α) :
    SSEOutput :=
  { status := 200, headers := sseHeaders, writes := writeSSEFrames marshal chunks }

/-!
Specification-side descriptions of the streaming pipeline, stated
independently of the loop structure of the code: the chunk values an
SSE body produces, and the in-order subsequence that survives the
provider transform.
-/

/-- Specification side: the chunk value produced (if any) from one line
of an SSE upstream body — present when the line, after trimming, is
non-empty, carries the `data: ` tag, is not the `[DONE]` marker, and
JSON-parses. -/
def specLineChunk {α : Type} (unmarshal : GoStr → Option α) (l : GoStr) :
    Option α :=
  let line := goTrimSpace l
  if line = [] then none
  else if goStartsWith line sseDataTag then
    let d := goStripStart line sseDataTag
    if d = sseDoneLit then none else unmarshal d
  else none

/-- Specification side: the chunk values produced from an SSE upstream
body, in order. -/
def specProducedChunks {α : Type} (unmarshal : GoStr → Option α)
    (lines : List GoStr) : List α :=
  lines.filterMap (specLineChunk unmarshal)

/-- The per-chunk effect of the optional provider transform: identity
when no transformer is configured, and the transformer's result
otherwise (`none` models the dropped frame). -/
def applyTransform {α : Type} (transformer : Option (α → Option α)) (c : α) :
    Option α :=
  match transformer with
  | none => some c
  | some t => t c

/-- Specification side: the in-order subsequence of a chunk sequence
that survives the provider transform, dropped frames excluded. -/
def specTransformed {α : Type} (transformer : Option (α → Option α))
    (σ : List α) : List α :=
  σ.filterMap (applyTransform transformer)

/-- Per-line agreement: on a non-blank line, `parseStreamingLine` in
SSE mode computes the spec-side produced chunk pushed through the
optional transform. -/
theorem parseStreamingLine_eq_spec {α : Type}
    (unmarshal : GoStr → Option α) (transformer : Option (α → Option α))
    (l : GoStr) (h1 : ¬ goTrimSpace l = []) :
    parseStreamingLine ⟨true, unmarshal, transformer⟩ (goTrimSpace l)
      = (specLineChunk unmarshal l).bind (applyTransform transformer) := by
  by_cases h2 : goStartsWith (goTrimSpace l) sseDataTag
  · by_cases h3 : goStripStart (goTrimSpace l) sseDataTag = sseDoneLit
    · simp [parseStreamingLine, parseSSELine, specLineChunk, h1, h2, h3]
    · cases hu : unmarshal (goStripStart (goTrimSpace l) sseDataTag) with
      | none =>
        simp [parseStreamingLine, parseSSELine, applyTransform,
          specLineChunk, h1, h2, h3, hu]
      | some c =>
        simp [parseStreamingLine, parseSSELine, applyTransform,
          specLineChunk, h1, h2, h3, hu]
  · simp [parseStreamingLine, parseSSELine, specLineChunk, h1, h2]

/-- The shared engine in SSE mode emits exactly the transform-surviving
subsequence of the produced chunk values. -/
theorem processStreamingResponse_eq_spec {α : Type}
    (unmarshal : GoStr → Option α) (transformer : Option (α → Option α))
    (lines : List GoStr) :
    processStreamingResponse ⟨true, unmarshal, transformer⟩ lines
      = specTransformed transformer (specProducedChunks unmarshal lines) := by
  induction lines with
  | nil => rfl
  | cons l ls ih =>
    by_cases h1 : goTrimSpace l = []
    · have hnone : specLineChunk unmarshal l = none := by
        simp [specLineChunk, h1]
      simp only [processStreamingResponse, h1, if_pos rfl, specProducedChunks,
        List.filterMap_cons, hnone]
      simpa [specProducedChunks] using ih
    · have hline := parseStreamingLine_eq_spec unmarshal transformer l h1
      simp only [processStreamingResponse, if_neg h1, hline]
      cases hc : specLineChunk unmarshal l with
      | none =>
        simp only [hc, Option.none_bind, specProducedChunks,
          List.filterMap_cons]
        simpa [specProducedChunks] using ih
      | some c =>
        cases ht : applyTransform transformer c with
        | none =>
          simp only [hc, Option.some_bind, ht, specProducedChunks,
            List.filterMap_cons, specTransformed]
          simpa [specProducedChunks, specTransformed] using ih
        | some c' =>
          simp only [hc, Option.some_bind, ht, specProducedChunks,
            List.filterMap_cons, specTransformed]
          simpa [specProducedChunks, specTransformed] using ih

/-- The SSE write loop writes one frame per successfully marshalled
chunk, in order, followed by the single `[DONE]` frame. -/
theorem writeSSEFrames_eq_filterMap {α : Type} (marshal : α → Option GoStr)
    (chunks : List α) :
    writeSSEFrames marshal chunks
      = chunks.filterMap (fun c => (marshal c).map dataFrame) ++ [doneFrame] := by
  induction chunks with
  | nil => rfl
  | cons c cs ih =>
    cases hm : marshal c with
    | none => simpa [writeSSEFrames, hm, List.filterMap_cons] using ih
    | some j => simpa [writeSSEFrames, hm, List.filterMap_cons] using ih

theorem doneFrame_eq_dataFrame : doneFrame = dataFrame sseDoneLit := by decide

theorem dataFrame_inj {p q : GoStr} (h : dataFrame p = dataFrame q) : p = q := by
  have h1 : gs "data: " ++ (p ++ gs "\n\n") = gs "data: " ++ (q ++ gs "\n\n") := by
    simpa [dataFrame, List.append_assoc] using h
  exact List.append_cancel_right (List.append_cancel_left h1)

theorem dataFrame_eq_doneFrame_iff (p : GoStr) :
    dataFrame p = doneFrame ↔ p = sseDoneLit := by
  constructor
  · intro h
    exact dataFrame_inj (h.trans doneFrame_eq_dataFrame)
  · intro h
    rw [h, doneFrame_eq_dataFrame]

theorem filterMap_some_comp_eq_map {α β : Type} (g : α → β) (l : List α) :
    l.filterMap (fun c => some (g c)) = l.map g := by
  induction l with
  | nil => rfl
  | cons x xs ih => simp [List.filterMap_cons, ih]

/-- C1: For every streaming request whose stream setup succeeds and
every sequence of upstream body lines, the SSE body written to the
caller is exactly one `data: <json>\n\n` frame per element of the
in-order subsequence of the produced chunk values that survives the
provider transform (no reordering, no duplication), followed by exactly
one terminating `data: [DONE]\n\n` frame.  The hypothesis states that
the JSON serialization of a chunk is never the literal `[DONE]` (true
of `json.Marshal`, whose output is valid JSON). -/
theorem c1_sse_body_is_transformed_subsequence {α : Type}
    (unmarshal : GoStr → Option α) (transformer : Option (α → Option α))
    (ser : α → GoStr) (lines : List GoStr)
    (hser : ∀ c : α, ser c ≠ sseDoneLit) :
    (writeSSEResponse (fun c => some (ser c))
        (processStreamingResponse ⟨true, unmarshal, transformer⟩ lines)).writes
      = (specTransformed transformer (specProducedChunks unmarshal lines)).map
          (fun c => dataFrame (ser c)) ++ [doneFrame] ∧
    ((writeSSEResponse (fun c => some (ser c))
        (processStreamingResponse ⟨true, unmarshal, transformer⟩ lines)).writes).count
        doneFrame = 1 := by
  have hbody :
      (writeSSEResponse (fun c => some (ser c))
          (processStreamingResponse ⟨true, unmarshal, transformer⟩ lines)).writes
        = (specTransformed transformer (specProducedChunks unmarshal lines)).map
            (fun c => dataFrame (ser c)) ++ [doneFrame] := by
    simp only [writeSSEResponse, writeSSEFrames_eq_filterMap,
      processStreamingResponse_eq_spec]
    simp only [Option.map_some']
    rw [filterMap_some_comp_eq_map]
  refine ⟨hbody, ?_⟩
  rw [hbody, List.count_append]
  have hzero :
      ((specTransformed transformer (specProducedChunks unmarshal lines)).map
          (fun c => dataFrame (ser c))).count doneFrame = 0 := by
    rw [List.count_eq_zero]
    intro hmem
    rcases List.mem_map.mp hmem with ⟨c, _, hc⟩
    exact hser c ((dataFrame_eq_doneFrame_iff (ser c)).mp hc)
  rw [hzero]
  simp [List.count_cons]

/-- A concrete `json.Unmarshal` outcome for the C1 witness. -/
def c1wUnmarshal : GoStr → Option Unit := fun d =>
  if d = gs "one" then some () else none

/-- A concrete serializer for the C1 witness. -/
def c1wSer : Unit → GoStr := fun _ => gs "x"

theorem c1wSer_ne_done (c : Unit) : c1wSer c ≠ sseDoneLit := by
  cases c
  decide

/-- Witness for C1: a one-line upstream body through the shared engine,
serialized with a constant serializer. -/
theorem c1_sse_body_is_transformed_subsequence_witness :
    (writeSSEResponse (fun c => some (c1wSer c))
        (processStreamingResponse ⟨true, c1wUnmarshal, none⟩
          [gs "data: one"])).writes
      = (specTransformed none (specProducedChunks c1wUnmarshal
            [gs "data: one"])).map
          (fun c => dataFrame (c1wSer c)) ++ [doneFrame] ∧
    ((writeSSEResponse (fun c => some (c1wSer c))
        (processStreamingResponse ⟨true, c1wUnmarshal, none⟩
          [gs "data: one"])).writes).count doneFrame = 1 :=
  c1_sse_body_is_transformed_subsequence c1wUnmarshal none c1wSer
    [gs "data: one"] c1wSer_ne_done

/-- C10: In the proxy's SSE writer, every chunk whose JSON serialization
fails is skipped and the stream continues with the remaining chunks:
the body writes are exactly the frames of the successfully marshalled
chunks in order followed by the `[DONE]` frame, the status stays 200,
and the headers are the three SSE headers — no error frame and no
status change for a failed chunk. -/
theorem c10_marshal_failures_skipped {α : Type} (marshal : α → Option GoStr)
    (chunks : List α) :
    (writeSSEResponse marshal chunks).writes
      = chunks.filterMap (fun c => (marshal c).map dataFrame) ++ [doneFrame] ∧
    (writeSSEResponse marshal chunks).status = 200 ∧
    (writeSSEResponse marshal chunks).headers = sseHeaders :=
  ⟨writeSSEFrames_eq_filterMap marshal chunks, rfl, rfl⟩

/-!
C5 concerns the `[DONE]` marker.  In the shared engine
(`parseStreamingLine`, part_005), the `done` outcome of `parseSSELine`
is collapsed into the same `(nil, false)` return value as `skip` and
parse failures, and `processStreamingResponse` then `continue`s — so a
parseable `data: ` line after `data: [DONE]` is still emitted, although
the source comments call `[DONE]` the end of the stream
(`// Check for end marker`, `// End of stream`) and the inline loop of
`OpenAIProvider.makeStreamingRequest` does return at the marker.
-/

/-- A concrete `json.Unmarshal` outcome for the C5 failing input. -/
def c5Unmarshal : GoStr → Option Nat := fun d =>
  if d = gs "1" then some 1 else if d = gs "2" then some 2 else none

/-- The C5 failing upstream body: a parseable frame, the `[DONE]`
marker, then another parseable frame. -/
def c5Lines : List GoStr := [gs "data: 1", gs "data: [DONE]", gs "data: 2"]

/-- C5: On an SSE stream containing a parseable `data: ` line after the
`data: [DONE]` marker, the shared streaming engine keeps emitting (the
second chunk appears after the marker), while the OpenAI provider's
inline loop ends the sequence at the marker as the claim states. -/
theorem c5_shared_engine_continues_after_done :
    processStreamingResponse ⟨true, c5Unmarshal, none⟩ c5Lines = [1, 2] ∧
    openaiStreamChunks c5Unmarshal c5Lines = [1] := by decide

/-!
Rendering of JSON values, the model of `json.Marshal` on decoded
values.  String escaping is not modelled: the payloads in this
development contain no characters that `encoding/json` would escape.
Object fields render in their list order (the construction sites below
list fields in the alphabetical order `json.Marshal` uses for maps
where the comparison matters).
-/

mutual

/-- Render a JSON value to its wire form. -/
def Json.render : Json → GoStr
  | .str s => '"' :: s.data ++ ['"']
  | .num n => (toString n).data
  | .bool b => if b then gs "true" else gs "false"
  | .null => gs "null"
  | .arr xs => '[' :: Json.renderArr xs ++ [']']
  | .obj fs => '\x7b' :: Json.renderObj fs ++ ['\x7d']

/-- Render the comma-separated elements of a JSON array. -/
def Json.renderArr : List Json → GoStr
  | [] => []
  | [x] => Json.render x
  | x :: y :: rest => Json.render x ++ ',' :: Json.renderArr (y :: rest)

/-- Render the comma-separated fields of a JSON object. -/
def Json.renderObj : List (String × Json) → GoStr
  | [] => []
  | [(k, v)] => '"' :: k.data ++ '"' :: ':' :: Json.render v
  | (k, v) :: f :: rest =>
    ('"' :: k.data ++ '"' :: ':' :: Json.render v) ++ ',' :: Json.renderObj (f :: rest)

end

/-!
HTTP responses and the two error writers of the proxy layer.

`internal/proxy/proxy.go` answers a failed JSON decode with
`http.Error(w, "Invalid JSON: <err>", 400)` — a plain-text body — while
the variant in `internal/proxy/interfaces.go` answers with
`writeError(w, 400, "Invalid JSON: <err>")`, the JSON error envelope.
Both variants carry the same `writeError` helper; only the decode path
differs in which writer it calls.
-/

/-- One HTTP response as observed by the caller. -/
structure HttpResponse where
  status : Nat
  contentType : String
  body : GoStr
deriving Repr

/-- Model of `http.Error(w, msg, code)` from `net/http`: a plain-text
response whose body is the message followed by a newline. -/
def httpError (msg : GoStr) (code : Nat) : HttpResponse :=
  { status := code, contentType := "text/plain; charset=utf-8",
    body := msg ++ gs "\n" }

/-- The error envelope built by `writeError`:
an object with an `error` object holding `message` and
`type: "invalid_request_error"` (fields listed in the alphabetical
order `json.Marshal` emits for Go maps). -/
def writeErrorBody (message : String) : Json :=
  .obj [("error", .obj [("message", .str message),
                        ("type", .str "invalid_request_error")])]

/-- Model of `writeError(w, statusCode, message)`: the JSON error
envelope (a trailing newline comes from `json.Encoder.Encode`). -/
def writeError (statusCode : Nat) (message : String) : HttpResponse :=
  { status := statusCode, contentType := "application/json",
    body := (writeErrorBody message).render ++ gs "\n" }

/-- Model of `decodeJSONRequest` from `internal/proxy/proxy.go`, as a
function of the `json.Decoder.Decode` outcome (`none` when the body
decoded, `some err` on failure): on failure it writes a plain-text 400
via `http.Error`. -/
def decodeJSONRequestPlain (decodeErr : Option String) : Option HttpResponse :=
  decodeErr.map (fun e => httpError (gs ("Invalid JSON: " ++ e)) 400)

/-- Model of `decodeJSONRequest` from `internal/proxy/interfaces.go`:
on failure it writes the JSON error envelope with status 400 via
`writeError`. -/
def decodeJSONRequestEnvelope (decodeErr : Option String) : Option HttpResponse :=
  decodeErr.map (fun e => writeError 400 ("Invalid JSON: " ++ e))

/-- C7 counterexample: on a failed decode, the `proxy.go` handler
variant responds 400 but with a plain-text body via `http.Error`, not
the JSON error envelope the claim requires of every handler. -/
theorem c7_plain_variant_not_envelope :
    ∃ r, decodeJSONRequestPlain (some "unexpected EOF") = some r ∧
      r.status = 400 ∧
      r.contentType ≠ "application/json" ∧
      r.body ≠ (writeErrorBody "Invalid JSON: unexpected EOF").render ++ gs "\n" := by
  refine ⟨httpError (gs "Invalid JSON: unexpected EOF") 400, rfl, rfl, ?_, ?_⟩
  · decide
  · decide

/-- C7 amended: on a failed JSON decode both handler variants respond
with status 400; the `interfaces.go` variant's body is the JSON error
envelope with message and type `invalid_request_error`, while the
`proxy.go` variant's body is the plain-text message written by
`http.Error`.  On a successful decode neither variant writes a
response. -/
theorem c7_decode_failure_gives_400 (e : String) :
    (∃ r, decodeJSONRequestEnvelope (some e) = some r ∧
      r.status = 400 ∧ r.contentType = "application/json" ∧
      r.body = (writeErrorBody ("Invalid JSON: " ++ e)).render ++ gs "\n") ∧
    (∃ r, decodeJSONRequestPlain (some e) = some r ∧
      r.status = 400 ∧ r.contentType = "text/plain; charset=utf-8" ∧
      r.body = gs ("Invalid JSON: " ++ e) ++ gs "\n") ∧
    decodeJSONRequestEnvelope none = none ∧
    decodeJSONRequestPlain none = none := by
  exact ⟨⟨writeError 400 ("Invalid JSON: " ++ e), rfl, rfl, rfl, rfl⟩,
    ⟨httpError (gs ("Invalid JSON: " ++ e)) 400, rfl, rfl, rfl, rfl⟩, rfl, rfl⟩

/-!
Non-streaming upstream calls, from `OpenAIProvider.makeRequest`
(`internal/providers/openai.go`, lines 85-120) and
`AnthropicProvider.makeRequest` (`internal/providers/anthropic.go`,
lines 114-152); the status/decode logic of the two is identical.  The
function is modelled on the upstream's observable response: the status
code and the fully read body.
-/

/-- Errors of a non-streaming upstream call. -/
inductive GoError where
  | upstream (status : Nat) (body : GoStr)
  | decodeFail
deriving Repr

/-- Model of `makeRequest`: any status other than 200
(`resp.StatusCode != http.StatusOK`) fails with the status and body;
a 200 response is JSON-decoded, and a decode failure fails. -/
def makeRequest (unmarshal : GoStr → Option Json) (status : Nat) (body : GoStr) :
    Except GoError Json :=
  if status ≠ 200 then .error (.upstream status body)
  else
    match unmarshal body with
    | none => .error .decodeFail
    | some v => .ok v

/-- Model of `handleResponse` from `internal/proxy/proxy.go`: on error
one plain-text 500 via `http.Error`; on success a 200 JSON response. -/
def handleResponse (result : Except GoError Json) : HttpResponse :=
  match result with
  | .error _ => httpError (gs "Internal server error") 500
  | .ok v =>
    { status := 200, contentType := "application/json",
      body := v.render ++ gs "\n" }

/-- Model of `handleResponse` from `internal/proxy/interfaces.go`: on
error one 500 with the JSON error envelope via `writeError`; on success
a 200 JSON response. -/
def handleResponseEnvelope (result : Except GoError Json) : HttpResponse :=
  match result with
  | .error _ => writeError 500 "Internal server error"
  | .ok v =>
    { status := 200, contentType := "application/json",
      body := v.render ++ gs "\n" }

/-- C6 counterexample: a 201 upstream status — a 2xx status the claim
says must succeed — with a decodable JSON body makes `makeRequest`
fail with the upstream error, and the caller receives a 500. -/
theorem c6_201_fails :
    (200 ≤ 201 ∧ 201 < 300) ∧
    makeRequest (fun b => if b = gs "null" then some .null else none) 201
        (gs "null")
      = .error (.upstream 201 (gs "null")) ∧
    (handleResponse
        (makeRequest (fun b => if b = gs "null" then some .null else none) 201
          (gs "null"))).status = 500 :=
  ⟨⟨by decide, by decide⟩, rfl, rfl⟩

/-- C6 amended: for every non-streaming call, any upstream status other
than 200 fails with an error carrying the upstream status and body, and
the caller receives exactly one 500 response (in both proxy handler
variants); an upstream status of exactly 200 with a JSON-decodable body
succeeds with the decoded body, answered as a single 200 JSON
response. -/
theorem c6_non200_fails_with_status_and_body (unmarshal : GoStr → Option Json)
    (status : Nat) (body : GoStr) :
    (status ≠ 200 →
      makeRequest unmarshal status body = .error (.upstream status body) ∧
      (handleResponse (makeRequest unmarshal status body)).status = 500 ∧
      (handleResponseEnvelope (makeRequest unmarshal status body)).status = 500) ∧
    (∀ v, status = 200 → unmarshal body = some v →
      makeRequest unmarshal status body = .ok v ∧
      handleResponse (makeRequest unmarshal status body)
        = { status := 200, contentType := "application/json",
            body := v.render ++ gs "\n" }) := by
  constructor
  · intro h
    simp [makeRequest, h, handleResponse, handleResponseEnvelope, httpError,
      writeError]
  · intro v h hu
    subst h
    simp [makeRequest, hu, handleResponse]

/-- Witness for C6 at concrete inputs: a 404 upstream response fails
with status and body and yields a 500; a 200 response with body `null`
succeeds with the decoded value. -/
theorem c6_non200_fails_with_status_and_body_witness :
    (makeRequest (fun b => if b = gs "null" then some .null else none) 404
        (gs "oops")
      = .error (.upstream 404 (gs "oops")) ∧
      (handleResponse
        (makeRequest (fun b => if b = gs "null" then some .null else none) 404
          (gs "oops"))).status = 500 ∧
      (handleResponseEnvelope
        (makeRequest (fun b => if b = gs "null" then some .null else none) 404
          (gs "oops"))).status = 500) ∧
    (makeRequest (fun b => if b = gs "null" then some .null else none) 200
        (gs "null")
      = .ok .null ∧
      handleResponse
        (makeRequest (fun b => if b = gs "null" then some .null else none) 200
          (gs "null"))
        = { status := 200, contentType := "application/json",
            body := Json.null.render ++ gs "\n" }) :=
  ⟨(c6_non200_fails_with_status_and_body _ 404 (gs "oops")).1 (by decide),
   (c6_non200_fails_with_status_and_body _ 200 (gs "null")).2 .null rfl rfl⟩

/-!
The multiplexer.  The `internal/multiplexer` package itself is not
among the sources at hand — only its interface
(`internal/proxy/interfaces.go`), its callers
(`internal/server/server.go`) and its documentation are — so its two
operations are modelled from the spec (sections 4.3 and 8).
-/

/-- Provider data visible to the multiplexer: the configured name,
declared model list and numeric priority (`Name()`, `ListModels()`,
`Priority()` of the provider adaptors). -/
structure Provider where
  name : String
  models : List String
  priority : Int
deriving Repr, DecidableEq

/-- The multiplexer's resolution error. -/
inductive MuxError where
  | noProviderForModel (model : String)
deriving Repr, DecidableEq

/-- Modelled from the spec: one step of the selection scan over the
configured providers — a provider declaring the model replaces the
current best only when its priority value is strictly lower, so ties
keep the earlier provider ("lowest numeric `priority`; ties broken by
configuration order", spec 4.3). -/
def selectBetter (model : String) (best : Option Provider) (p : Provider) :
    Option Provider :=
  if model ∈ p.models then
    match best with
    | none => some p
    | some b => if p.priority < b.priority then some p else best
  else best

/-- Modelled from the spec: the selection scan over the provider list in
configuration order. -/
def getProviderLoop (model : String) : List Provider → Option Provider → Option Provider
  | [], best => best
  | p :: rest, best => getProviderLoop model rest (selectBetter model best p)

/-- Modelled from the spec: the multiplexer's `GetProvider` — the
provider with the lowest numeric priority among those declaring the
model, ties broken by configuration order, failing with
`NoProviderForModel` naming the model when none declares it
(`internal/multiplexer` is not among the sources; spec 4.3). -/
def getProvider (ps : List Provider) (model : String) : Except MuxError Provider :=
  match getProviderLoop model ps none with
  | some p => .ok p
  | none => .error (.noProviderForModel model)

/-- Specification-side selection, by structural recursion: the head
wins against the best of the tail unless the tail's best is strictly
lower. -/
def specSelect (model : String) : List Provider → Option Provider
  | [] => none
  | p :: rest =>
    match specSelect model rest with
    | none => if model ∈ p.models then some p else none
    | some q =>
      if model ∈ p.models then
        if q.priority < p.priority then some q else some p
      else some q

/-- The accumulator form of the scan agrees with the structural
specification: the carried best wins ties against the remainder. -/
theorem getProviderLoop_eq_specSelect (model : String) (ps : List Provider) :
    ∀ best : Option Provider,
      getProviderLoop model ps best
        = (match best, specSelect model ps with
           | none, r => r
           | some b, none => some b
           | some b, some q =>
             if q.priority < b.priority then some q else some b) := by
  induction ps with
  | nil =>
    intro best
    cases best <;> rfl
  | cons p rest ih =>
    intro best
    by_cases hd : model ∈ p.models
    · cases best with
      | none =>
        simp only [getProviderLoop, selectBetter, if_pos hd, specSelect]
        rw [ih (some p)]
        cases hr : specSelect model rest with
        | none => simp
        | some q => simp
      | some b =>
        simp only [getProviderLoop, selectBetter, if_pos hd, specSelect]
        by_cases hpb : p.priority < b.priority
        · rw [if_pos hpb, ih (some p)]
          cases hr : specSelect model rest with
          | none => simp [hpb]
          | some q =>
            simp only []
            by_cases hqp : q.priority < p.priority
            · have hqb : q.priority < b.priority := lt_trans hqp hpb
              simp [hqp, hqb]
            · simp [hqp, hpb]
        · rw [if_neg hpb, ih (some b)]
          cases hr : specSelect model rest with
          | none => simp [hpb]
          | some q =>
            simp only []
            by_cases hqp : q.priority < p.priority
            · simp [hqp]
            · have hqb : ¬ q.priority < b.priority := by
                intro h
                exact hqp (lt_of_lt_of_le h (not_lt.mp hpb))
              simp [hqp, hqb, hpb]
    · cases best with
      | none =>
        simp only [getProviderLoop, selectBetter, if_neg hd, specSelect]
        rw [ih none]
        cases hr : specSelect model rest with
        | none => simp
        | some q => simp
      | some b =>
        simp only [getProviderLoop, selectBetter, if_neg hd, specSelect]
        rw [ih (some b)]
        cases hr : specSelect model rest with
        | none => simp
        | some q => simp

/-- The selection yields a provider as soon as some provider declares
the model. -/
theorem specSelect_isSome_of_declares (model : String) (ps : List Provider)
    (q : Provider) (hq : q ∈ ps) (hm : model ∈ q.models) :
    ∃ r, specSelect model ps = some r := by
  induction ps with
  | nil => cases hq
  | cons p rest ih =>
    rcases List.mem_cons.mp hq with h1 | h1
    · subst h1
      cases hr : specSelect model rest with
      | none => exact ⟨q, by simp [specSelect, hr, hm]⟩
      | some r =>
        by_cases hlt : r.priority < q.priority
        · exact ⟨r, by simp [specSelect, hr, hm, hlt]⟩
        · exact ⟨q, by simp [specSelect, hr, hm, hlt]⟩
    · obtain ⟨r, hrr⟩ := ih h1
      by_cases hm2 : model ∈ p.models
      · by_cases hlt : r.priority < p.priority
        · exact ⟨r, by simp [specSelect, hrr, hm2, hlt]⟩
        · exact ⟨p, by simp [specSelect, hrr, hm2, hlt]⟩
      · exact ⟨r, by simp [specSelect, hrr, hm2]⟩

/-- The provider chosen by `specSelect` declares the model, has minimal
priority among declaring providers, and is the earliest among the
minima: every earlier declaring provider has a strictly greater
priority value. -/
theorem specSelect_some_spec (model : String) (ps : List Provider)
    (p : Provider) (h : specSelect model ps = some p) :
    model ∈ p.models ∧
    (∀ q ∈ ps, model ∈ q.models → p.priority ≤ q.priority) ∧
    ∃ pre post, ps = pre ++ p :: post ∧
      (∀ q ∈ pre, model ∈ q.models → p.priority < q.priority) := by
  induction ps generalizing p with
  | nil => cases h
  | cons hd rest ih =>
    cases hr : specSelect model rest with
    | none =>
      have hnone : ∀ q ∈ rest, model ∉ q.models := by
        intro q hq hm
        obtain ⟨r, hrr⟩ := specSelect_isSome_of_declares model rest q hq hm
        rw [hr] at hrr
        cases hrr
      by_cases hdm : model ∈ hd.models
      · have hp : p = hd := by
          simp [specSelect, hr, hdm] at h
          exact h.symm
        subst hp
        refine ⟨hdm, ?_, [], rest, rfl, ?_⟩
        · intro q hq hqm
          rcases List.mem_cons.mp hq with hq1 | hq1
          · rw [hq1]
          · exact absurd hqm (hnone q hq1)
        · intro q hq
          cases hq
      · simp [specSelect, hr, hdm] at h
    | some q =>
      have ihq := ih q hr
      by_cases hdm : model ∈ hd.models
      · by_cases hlt : q.priority < hd.priority
        · have hp : p = q := by
            simp [specSelect, hr, hdm, hlt] at h
            exact h.symm
          subst hp
          obtain ⟨hqm, hmin, pre, post, hsplit, hpre⟩ := ihq
          refine ⟨hqm, ?_, hd :: pre, post, by rw [hsplit, List.cons_append], ?_⟩
          · intro r hrmem hrm
            rcases List.mem_cons.mp hrmem with hr1 | hr1
            · rw [hr1]; exact le_of_lt hlt
            · exact hmin r hr1 hrm
          · intro r hrmem hrm
            rcases List.mem_cons.mp hrmem with hr1 | hr1
            · rw [hr1]; exact hlt
            · exact hpre r hr1 hrm
        · have hp : p = hd := by
            simp [specSelect, hr, hdm, hlt] at h
            exact h.symm
          subst hp
          obtain ⟨hqm, hmin, _⟩ := ihq
          refine ⟨hdm, ?_, [], rest, rfl, ?_⟩
          · intro r hrmem hrm
            rcases List.mem_cons.mp hrmem with hr1 | hr1
            · rw [hr1]
            · exact le_trans (not_lt.mp hlt) (hmin r hr1 hrm)
          · intro r hrmem
            cases hrmem
      · have hp : p = q := by
          simp [specSelect, hr, hdm] at h
          exact h.symm
        subst hp
        obtain ⟨hqm, hmin, pre, post, hsplit, hpre⟩ := ihq
        refine ⟨hqm, ?_, hd :: pre, post, by rw [hsplit, List.cons_append], ?_⟩
        · intro r hrmem hrm
          rcases List.mem_cons.mp hrmem with hr1 | hr1
          · rw [hr1] at hrm; exact absurd hrm hdm
          · exact hmin r hr1 hrm
        · intro r hrmem hrm
          rcases List.mem_cons.mp hrmem with hr1 | hr1
          · rw [hr1] at hrm; exact absurd hrm hdm
          · exact hpre r hr1 hrm

/-- C2: For every configuration and model id, the multiplexer selects
the provider with the lowest numeric priority value among those whose
declared model list contains the id, ties broken by configuration
order (the selected provider declares the model, no declaring provider
has a lower priority value, and every declaring provider placed
earlier in the configuration has a strictly greater one); when no
configured provider declares the id, resolution fails with
`NoProviderForModel` naming it. -/
theorem c2_getProvider_priority_selection (ps : List Provider) (model : String) :
    (getProvider ps model = .error (.noProviderForModel model) ↔
      ∀ p ∈ ps, model ∉ p.models) ∧
    (∀ p, getProvider ps model = .ok p →
      model ∈ p.models ∧
      (∀ q ∈ ps, model ∈ q.models → p.priority ≤ q.priority) ∧
      ∃ pre post, ps = pre ++ p :: post ∧
        (∀ q ∈ pre, model ∈ q.models → p.priority < q.priority)) := by
  have hloop : getProviderLoop model ps none = specSelect model ps := by
    rw [getProviderLoop_eq_specSelect model ps none]
  constructor
  · constructor
    · intro h q hq hm
      obtain ⟨r, hrr⟩ := specSelect_isSome_of_declares model ps q hq hm
      rw [getProvider, hloop, hrr] at h
      cases h
    · intro h
      have hs : specSelect model ps = none := by
        cases hs : specSelect model ps with
        | none => rfl
        | some r =>
          obtain ⟨hrm, _, pre, post, hsplit, _⟩ :=
            specSelect_some_spec model ps r hs
          have hmem : r ∈ ps := by
            rw [hsplit]
            exact List.mem_append_right pre (List.mem_cons_self r post)
          exact absurd hrm (h r hmem)
      rw [getProvider, hloop, hs]
  · intro p h
    cases hs : specSelect model ps with
    | none =>
      rw [getProvider, hloop, hs] at h
      cases h
    | some q =>
      rw [getProvider, hloop, hs] at h
      cases h
      exact specSelect_some_spec model ps p hs

/-- Witness for C2: with two providers both declaring `shared` at equal
priority, the earlier one is selected, satisfying the selection
characterization; the concrete facts are evaluated. -/
theorem c2_getProvider_priority_selection_witness :
    "shared" ∈ (Provider.mk "a" ["shared"] 1).models ∧
    (∀ q ∈ [Provider.mk "a" ["shared"] 1, Provider.mk "b" ["shared"] 1],
      "shared" ∈ q.models →
        (Provider.mk "a" ["shared"] 1).priority ≤ q.priority) ∧
    ∃ pre post,
      [Provider.mk "a" ["shared"] 1, Provider.mk "b" ["shared"] 1]
        = pre ++ Provider.mk "a" ["shared"] 1 :: post ∧
      (∀ q ∈ pre, "shared" ∈ q.models →
        (Provider.mk "a" ["shared"] 1).priority < q.priority) :=
  (c2_getProvider_priority_selection
    [Provider.mk "a" ["shared"] 1, Provider.mk "b" ["shared"] 1] "shared").2
    (Provider.mk "a" ["shared"] 1) rfl

/-!
The aggregated model catalog.  The catalog id list (`mux.ListModels()`)
is again modelled from the spec (4.3: first encounter fixes the entry,
later duplicates are ignored, order preserved).  `HandleModels` itself
is in the sources (`internal/proxy/proxy.go` lines 107-126 and
`internal/proxy/interfaces.go` lines 103-122, identical): it maps every
id to a `ModelInfo` whose `owned_by` is the constant string
`"modelplex"` and whose `created` is the fixed integer 1677610602.
-/

/-- The fixed `created` timestamp (`defaultModelCreated`). -/
def defaultModelCreated : Int := 1677610602

/-- One entry of the models response (`ModelInfo`). -/
structure ModelInfo where
  id : String
  object : String
  created : Int
  ownedBy : String
deriving Repr, DecidableEq

/-- The models response (`ModelsResponse`). -/
structure ModelsResponse where
  object : String
  data : List ModelInfo
deriving Repr, DecidableEq

/-- First-seen deduplication of a list of model ids, keeping the first
occurrence of each id in order; `seen` carries the ids already
emitted. -/
def dedupFirstSeen (seen : List String) : List String → List String
  | [] => []
  | m :: ms =>
    if m ∈ seen then dedupFirstSeen seen ms
    else m :: dedupFirstSeen (m :: seen) ms

/-- Modelled from the spec: the multiplexer's aggregated catalog ids —
providers are iterated in configuration order and the first encounter
of each model id fixes its place; later duplicates are ignored
(`internal/multiplexer` is not among the sources; spec 4.3). -/
def muxListModels (ps : List Provider) : List String :=
  dedupFirstSeen [] (ps.flatMap (·.models))

/-- Model of `HandleModels`: one `ModelInfo` per catalog id, with
object `"model"`, the fixed creation time, and `owned_by` the constant
`"modelplex"`, wrapped in an object-`"list"` response. -/
def handleModels (ps : List Provider) : ModelsResponse :=
  { object := "list",
    data := (muxListModels ps).map (fun m =>
      { id := m, object := "model", created := defaultModelCreated,
        ownedBy := "modelplex" }) }

theorem dedupFirstSeen_sublist (seen xs : List String) :
    List.Sublist (dedupFirstSeen seen xs) xs := by
  induction xs generalizing seen with
  | nil => simp [dedupFirstSeen]
  | cons m ms ih =>
    by_cases h : m ∈ seen
    · simp only [dedupFirstSeen, if_pos h]
      exact (ih seen).cons m
    · simp only [dedupFirstSeen, if_neg h]
      exact (ih (m :: seen)).cons₂ m

theorem mem_dedupFirstSeen (seen xs : List String) (x : String) :
    x ∈ dedupFirstSeen seen xs ↔ x ∈ xs ∧ x ∉ seen := by
  induction xs generalizing seen with
  | nil => simp [dedupFirstSeen]
  | cons m ms ih =>
    by_cases h : m ∈ seen
    · rw [dedupFirstSeen, if_pos h, ih]
      constructor
      · rintro ⟨hx, hs⟩
        exact ⟨List.mem_cons_of_mem m hx, hs⟩
      · rintro ⟨hx, hs⟩
        rcases List.mem_cons.mp hx with h1 | h1
        · exact absurd (h1 ▸ h) hs
        · exact ⟨h1, hs⟩
    · rw [dedupFirstSeen, if_neg h]
      constructor
      · intro hx
        rcases List.mem_cons.mp hx with h1 | h1
        · exact ⟨h1 ▸ List.mem_cons_self m ms, h1 ▸ h⟩
        · obtain ⟨hx1, hs1⟩ := (ih (m :: seen)).mp h1
          exact ⟨List.mem_cons_of_mem m hx1,
            fun hxs => hs1 (List.mem_cons_of_mem m hxs)⟩
      · rintro ⟨hx, hs⟩
        rcases List.mem_cons.mp hx with h1 | h1
        · exact h1 ▸ List.mem_cons_self x _
        · by_cases hxm : x = m
          · exact hxm ▸ List.mem_cons_self x _
          · refine List.mem_cons_of_mem m ((ih (m :: seen)).mpr ⟨h1, ?_⟩)
            intro hxs
            rcases List.mem_cons.mp hxs with h2 | h2
            · exact hxm h2
            · exact hs h2

theorem dedupFirstSeen_nodup (seen xs : List String) :
    (dedupFirstSeen seen xs).Nodup := by
  induction xs generalizing seen with
  | nil => simp [dedupFirstSeen]
  | cons m ms ih =>
    by_cases h : m ∈ seen
    · rw [dedupFirstSeen, if_pos h]
      exact ih seen
    · rw [dedupFirstSeen, if_neg h]
      refine List.nodup_cons.mpr ⟨?_, ih (m :: seen)⟩
      intro hmem
      exact ((mem_dedupFirstSeen (m :: seen) ms m).mp hmem).2
        (List.mem_cons_self m seen)

/-- C3 counterexample: with a single provider named `p1` declaring
model `m`, the catalog entry for `m` carries `owned_by = "modelplex"`,
not the name `p1` of the provider that first declared it. -/
theorem c3_ownedBy_is_constant_not_provider_name :
    (handleModels [Provider.mk "p1" ["m"] 1]).data
      = [ModelInfo.mk "m" "model" 1677610602 "modelplex"] ∧
    ("modelplex" : String) ≠ "p1" := by
  constructor
  · rfl
  · decide

/-- C3 amended: the models response is an object-`"list"` with one
`ModelInfo` per distinct catalog model id in first-seen order (the
catalog ids are duplicate-free, keep the declaration order, and cover
exactly the declared models), and every entry has object `"model"`,
the fixed `created` 1677610602, and `owned_by` equal to the constant
string `"modelplex"` rather than the declaring provider's name. -/
theorem c3_models_catalog_constant_owner (ps : List Provider) :
    (handleModels ps).object = "list" ∧
    (handleModels ps).data.map (·.id) = muxListModels ps ∧
    (∀ info ∈ (handleModels ps).data,
      info.object = "model" ∧ info.created = 1677610602 ∧
      info.ownedBy = "modelplex") ∧
    (muxListModels ps).Nodup ∧
    List.Sublist (muxListModels ps) (ps.flatMap (·.models)) ∧
    (∀ m, m ∈ muxListModels ps ↔ ∃ p ∈ ps, m ∈ p.models) := by
  refine ⟨rfl, ?_, ?_, dedupFirstSeen_nodup [] _, dedupFirstSeen_sublist [] _, ?_⟩
  · simp only [handleModels, List.map_map]
    exact List.map_id'' (fun x => rfl) _
  · intro info hinfo
    simp only [handleModels, List.mem_map] at hinfo
    obtain ⟨m, _, rfl⟩ := hinfo
    exact ⟨rfl, rfl, rfl⟩
  · intro m
    rw [muxListModels, mem_dedupFirstSeen]
    simp [List.mem_flatMap]

/-!
The Anthropic adaptor's message transformation, from
`AnthropicProvider.ChatCompletion` (`internal/providers/anthropic.go`,
lines 73-104) and `AnthropicProvider.ChatCompletionStream` (lines
155-188); the two loops are textually identical, so the embedding
shares one loop definition.

The Go loop reads `msg["role"].(string)` and `msg["content"].(string)`
with unchecked type assertions: a missing key yields the nil interface
and the assertion on a nil or non-string value panics at runtime.  The
embedding returns `Except GoPanic`, whose error constructor stands for
that runtime panic (the Go functions' declared `error` results are
never produced by this path).

For `system`-role messages the loop executes `systemMessage = content`:
each system message overwrites the previous value, so only the last
system message's content survives, and the `system` field is omitted
exactly when that final value is the empty string.
-/

/-- A Go `map[string]interface{}` value: ordered key/value pairs. -/
abbrev GoMap := List (String × Json)

/-- Lookup in a Go map: `none` models the nil interface for a missing
key. -/
def mapGet (m : GoMap) (k : String) : Option Json :=
  (m.find? (fun f => f.1 == k)).map (·.2)

/-- A Go runtime panic. -/
inductive GoPanic where
  | typeAssertion : GoPanic
deriving Repr, DecidableEq

/-- Model of the unchecked type assertion `v.(string)`: panics unless
the value is present and a string. -/
def assertString : Option Json → Except GoPanic String
  | some (.str s) => .ok s
  | _ => .error .typeAssertion

/-- The shared message loop of `ChatCompletion` and
`ChatCompletionStream`: splits off system content (last value wins)
and forwards the remaining messages as `{role, content}` pairs. -/
def anthropicMessagesLoop :
    List GoMap → List GoMap → String → Except GoPanic (List GoMap × String)
  | [], acc, sys => .ok (acc, sys)
  | msg :: rest, acc, sys =>
    match assertString (mapGet msg "role") with
    | .error e => .error e
    | .ok role =>
      match assertString (mapGet msg "content") with
      | .error e => .error e
      | .ok content =>
        if role = "system" then anthropicMessagesLoop rest acc content
        else
          anthropicMessagesLoop rest
            (acc ++ [[("role", Json.str role), ("content", Json.str content)]])
            sys

/-- Model of the payload built by `AnthropicProvider.ChatCompletion`:
model, transformed messages, `max_tokens: 4096`, and the `system`
field when the collected system content is non-empty. -/
def anthropicChatPayload (model : String) (messages : List GoMap) :
    Except GoPanic GoMap :=
  match anthropicMessagesLoop messages [] "" with
  | .error e => .error e
  | .ok (ms, sys) =>
    .ok ([("model", Json.str model),
          ("messages", Json.arr (ms.map Json.obj)),
          ("max_tokens", Json.num 4096)]
         ++ (if sys = "" then [] else [("system", Json.str sys)]))

/-- Model of the payload built by
`AnthropicProvider.ChatCompletionStream`: as the non-streaming payload
plus `stream: true`. -/
def anthropicChatStreamPayload (model : String) (messages : List GoMap) :
    Except GoPanic GoMap :=
  match anthropicMessagesLoop messages [] "" with
  | .error e => .error e
  | .ok (ms, sys) =>
    .ok ([("model", Json.str model),
          ("messages", Json.arr (ms.map Json.obj)),
          ("max_tokens", Json.num 4096),
          ("stream", Json.bool true)]
         ++ (if sys = "" then [] else [("system", Json.str sys)]))

/-- A message on which the Go type assertions succeed: both `role` and
`content` are present and string-valued. -/
def wellFormedMsg (msg : GoMap) : Prop :=
  (∃ r, mapGet msg "role" = some (Json.str r)) ∧
  (∃ c, mapGet msg "content" = some (Json.str c))

/-- Specification side: the string value of a field of a well-formed
message. -/
def strField (msg : GoMap) (k : String) : String :=
  match mapGet msg k with
  | some (.str s) => s
  | _ => ""

/-- Specification side: the content of the last `system`-role message,
starting from `init` when there is none. -/
def specLastSystem (init : String) (messages : List GoMap) : String :=
  messages.foldl
    (fun sys msg =>
      if strField msg "role" = "system" then strField msg "content" else sys)
    init

/-- Specification side: the non-system messages, in order, reduced to
their `{role, content}` pairs. -/
def specNonSystem (messages : List GoMap) : List GoMap :=
  (messages.filter (fun msg => !(strField msg "role" == "system"))).map
    (fun msg => [("role", Json.str (strField msg "role")),
                 ("content", Json.str (strField msg "content"))])

theorem assertString_not_str (o : Option Json)
    (h : ∀ s, o ≠ some (Json.str s)) :
    assertString o = .error .typeAssertion := by
  cases o with
  | none => rfl
  | some v =>
    cases v with
    | str s => exact absurd rfl (h s)
    | num n => rfl
    | bool b => rfl
    | null => rfl
    | arr xs => rfl
    | obj fs => rfl

theorem anthropicMessagesLoop_ok (messages : List GoMap)
    (h : ∀ msg ∈ messages, wellFormedMsg msg) :
    ∀ acc sys, anthropicMessagesLoop messages acc sys
      = .ok (acc ++ specNonSystem messages, specLastSystem sys messages) := by
  induction messages with
  | nil =>
    intro acc sys
    simp [anthropicMessagesLoop, specNonSystem, specLastSystem]
  | cons msg rest ih =>
    intro acc sys
    obtain ⟨⟨r, hr⟩, ⟨c, hc⟩⟩ := h msg (List.mem_cons_self msg rest)
    have hrest := fun m hm => h m (List.mem_cons_of_mem msg hm)
    have hsf : strField msg "role" = r := by simp [strField, hr]
    have hcf : strField msg "content" = c := by simp [strField, hc]
    by_cases hsys : r = "system"
    · rw [show anthropicMessagesLoop (msg :: rest) acc sys
          = anthropicMessagesLoop rest acc c by
        simp [anthropicMessagesLoop, hr, hc, assertString, hsys]]
      rw [ih hrest acc c]
      rw [show specNonSystem (msg :: rest) = specNonSystem rest by
        simp [specNonSystem, List.filter_cons, hsf, hsys]]
      rw [show specLastSystem sys (msg :: rest) = specLastSystem c rest by
        simp [specLastSystem, List.foldl_cons, hsf, hcf, hsys]]
    · rw [show anthropicMessagesLoop (msg :: rest) acc sys
          = anthropicMessagesLoop rest
              (acc ++ [[("role", Json.str r), ("content", Json.str c)]]) sys by
        simp [anthropicMessagesLoop, hr, hc, assertString, hsys]]
      rw [ih hrest _ sys]
      rw [show specNonSystem (msg :: rest)
          = [("role", Json.str r), ("content", Json.str c)]
            :: specNonSystem rest by
        simp [specNonSystem, List.filter_cons, hsf, hcf, hsys]]
      rw [show specLastSystem sys (msg :: rest) = specLastSystem sys rest by
        simp [specLastSystem, List.foldl_cons, hsf, hsys]]
      simp

theorem anthropicMessagesLoop_panics (messages : List GoMap)
    (h : ∃ msg ∈ messages, ¬ wellFormedMsg msg) :
    ∀ acc sys, anthropicMessagesLoop messages acc sys
      = .error .typeAssertion := by
  induction messages with
  | nil => simp at h
  | cons msg rest ih =>
    intro acc sys
    by_cases hw : wellFormedMsg msg
    · obtain ⟨⟨r, hr⟩, ⟨c, hc⟩⟩ := id hw
      have hrest : ∃ m ∈ rest, ¬ wellFormedMsg m := by
        obtain ⟨m, hm, hnw⟩ := h
        rcases List.mem_cons.mp hm with h1 | h1
        · exact absurd hw (h1 ▸ hnw)
        · exact ⟨m, h1, hnw⟩
      by_cases hsys : r = "system"
      · rw [show anthropicMessagesLoop (msg :: rest) acc sys
            = anthropicMessagesLoop rest acc c by
          simp [anthropicMessagesLoop, hr, hc, assertString, hsys]]
        exact ih hrest acc c
      · rw [show anthropicMessagesLoop (msg :: rest) acc sys
            = anthropicMessagesLoop rest
                (acc ++ [[("role", Json.str r), ("content", Json.str c)]]) sys by
          simp [anthropicMessagesLoop, hr, hc, assertString, hsys]]
        exact ih hrest _ sys
    · by_cases hA : ∃ r, mapGet msg "role" = some (Json.str r)
      · obtain ⟨r, hr⟩ := hA
        have hB : ∀ s, mapGet msg "content" ≠ some (Json.str s) := by
          intro s hs
          exact hw ⟨⟨r, hr⟩, ⟨s, hs⟩⟩
        have hcerr := assertString_not_str (mapGet msg "content") hB
        simp [anthropicMessagesLoop, hr, assertString, hcerr]
      · have hrerr := assertString_not_str (mapGet msg "role")
          (fun s hs => hA ⟨s, hs⟩)
        simp [anthropicMessagesLoop, hrerr]

/-- C4 counterexample: with two system messages of contents `"a"` and
`"b"`, the built payload's `system` field is exactly `"b"` — the
content `"a"` of the first system message does not occur in it, so the
field is not a joining of the contents of all system messages. -/
theorem c4_second_system_message_overwrites :
    ∃ P, anthropicChatPayload "m"
        [[("role", Json.str "system"), ("content", Json.str "a")],
         [("role", Json.str "system"), ("content", Json.str "b")],
         [("role", Json.str "user"), ("content", Json.str "hi")]] = .ok P ∧
      mapGet P "system" = some (Json.str "b") ∧
      ¬ gs "a" <:+: gs "b" := by
  refine ⟨_, rfl, rfl, ?_⟩
  decide

/-- C4 amended: for every chat request whose messages all carry
string-valued `role` and `content` fields, both the non-streaming and
the streaming Anthropic payload remove every `system`-role message from
`messages`, forward the remaining messages as `{role, content}` in
order, add `max_tokens: 4096` (and `stream: true` in the streaming
variant), and set the top-level `system` field to the content of the
**last** system message, omitting it when there is no system message or
the last one's content is empty. -/
theorem c4_anthropic_last_system_wins (model : String) (messages : List GoMap)
    (h : ∀ msg ∈ messages, wellFormedMsg msg) :
    anthropicChatPayload model messages
      = .ok ([("model", Json.str model),
              ("messages", Json.arr ((specNonSystem messages).map Json.obj)),
              ("max_tokens", Json.num 4096)]
             ++ (if specLastSystem "" messages = "" then []
                 else [("system", Json.str (specLastSystem "" messages))])) ∧
    anthropicChatStreamPayload model messages
      = .ok ([("model", Json.str model),
              ("messages", Json.arr ((specNonSystem messages).map Json.obj)),
              ("max_tokens", Json.num 4096),
              ("stream", Json.bool true)]
             ++ (if specLastSystem "" messages = "" then []
                 else [("system", Json.str (specLastSystem "" messages))])) := by
  have hloop := anthropicMessagesLoop_ok messages h [] ""
  constructor
  · unfold anthropicChatPayload
    rw [hloop]
    simp
  · unfold anthropicChatStreamPayload
    rw [hloop]
    simp

/-- Witness for C4 at the spec's scenario 3: one system message
`"be terse"` and one user message `"hi"`. -/
theorem c4_anthropic_last_system_wins_witness :
    anthropicChatPayload "claude-3-sonnet"
        [[("role", Json.str "system"), ("content", Json.str "be terse")],
         [("role", Json.str "user"), ("content", Json.str "hi")]]
      = .ok ([("model", Json.str "claude-3-sonnet"),
              ("messages", Json.arr ((specNonSystem
                  [[("role", Json.str "system"), ("content", Json.str "be terse")],
                   [("role", Json.str "user"), ("content", Json.str "hi")]]).map
                    Json.obj)),
              ("max_tokens", Json.num 4096)]
             ++ (if specLastSystem ""
                    [[("role", Json.str "system"), ("content", Json.str "be terse")],
                     [("role", Json.str "user"), ("content", Json.str "hi")]] = ""
                 then []
                 else [("system", Json.str (specLastSystem ""
                    [[("role", Json.str "system"), ("content", Json.str "be terse")],
                     [("role", Json.str "user"), ("content", Json.str "hi")]]))])) ∧
    anthropicChatStreamPayload "claude-3-sonnet"
        [[("role", Json.str "system"), ("content", Json.str "be terse")],
         [("role", Json.str "user"), ("content", Json.str "hi")]]
      = .ok ([("model", Json.str "claude-3-sonnet"),
              ("messages", Json.arr ((specNonSystem
                  [[("role", Json.str "system"), ("content", Json.str "be terse")],
                   [("role", Json.str "user"), ("content", Json.str "hi")]]).map
                    Json.obj)),
              ("max_tokens", Json.num 4096),
              ("stream", Json.bool true)]
             ++ (if specLastSystem ""
                    [[("role", Json.str "system"), ("content", Json.str "be terse")],
                     [("role", Json.str "user"), ("content", Json.str "hi")]] = ""
                 then []
                 else [("system", Json.str (specLastSystem ""
                    [[("role", Json.str "system"), ("content", Json.str "be terse")],
                     [("role", Json.str "user"), ("content", Json.str "hi")]]))])) :=
  c4_anthropic_last_system_wins "claude-3-sonnet"
    [[("role", Json.str "system"), ("content", Json.str "be terse")],
     [("role", Json.str "user"), ("content", Json.str "hi")]]
    (by
      intro msg hm
      rcases List.mem_cons.mp hm with h1 | h1
      · subst h1
        exact ⟨⟨"system", rfl⟩, ⟨"be terse", rfl⟩⟩
      · rw [List.mem_singleton] at h1
        subst h1
        exact ⟨⟨"user", rfl⟩, ⟨"hi", rfl⟩⟩)

/-- C9: the Anthropic message transformation (shared by
`ChatCompletion` and `ChatCompletionStream`) panics via the unchecked
type assertions whenever some message lacks a string-valued `role` or
`content`, and only succeeds when every message carries both. -/
theorem c9_bad_message_fields_panic (model : String) (messages : List GoMap) :
    ((∃ msg ∈ messages, ¬ wellFormedMsg msg) →
      anthropicChatPayload model messages = .error .typeAssertion ∧
      anthropicChatStreamPayload model messages = .error .typeAssertion) ∧
    ((∀ msg ∈ messages, wellFormedMsg msg) →
      (∃ P, anthropicChatPayload model messages = .ok P) ∧
      (∃ P, anthropicChatStreamPayload model messages = .ok P)) := by
  constructor
  · intro h
    have hloop := anthropicMessagesLoop_panics messages h [] ""
    constructor
    · simp [anthropicChatPayload, hloop]
    · simp [anthropicChatStreamPayload, hloop]
  · intro h
    have hloop := anthropicMessagesLoop_ok messages h [] ""
    constructor
    · exact ⟨([("model", Json.str model),
            ("messages", Json.arr ((([] ++ specNonSystem messages)).map Json.obj)),
            ("max_tokens", Json.num 4096)]
           ++ (if specLastSystem "" messages = "" then []
               else [("system", Json.str (specLastSystem "" messages))])),
        by unfold anthropicChatPayload; rw [hloop]⟩
    · exact ⟨([("model", Json.str model),
            ("messages", Json.arr ((([] ++ specNonSystem messages)).map Json.obj)),
            ("max_tokens", Json.num 4096),
            ("stream", Json.bool true)]
           ++ (if specLastSystem "" messages = "" then []
               else [("system", Json.str (specLastSystem "" messages))])),
        by unfold anthropicChatStreamPayload; rw [hloop]⟩

/-- Witness for C9: a message whose `role` is the number 1 (and whose
`content` is missing) panics both variants; a well-formed user message
succeeds. -/
theorem c9_bad_message_fields_panic_witness :
    (anthropicChatPayload "m" [[("role", Json.num 1)]]
        = .error .typeAssertion ∧
     anthropicChatStreamPayload "m" [[("role", Json.num 1)]]
        = .error .typeAssertion) ∧
    ((∃ P, anthropicChatPayload "m"
        [[("role", Json.str "user"), ("content", Json.str "hi")]] = .ok P) ∧
     (∃ P, anthropicChatStreamPayload "m"
        [[("role", Json.str "user"), ("content", Json.str "hi")]] = .ok P)) :=
  ⟨(c9_bad_message_fields_panic "m" [[("role", Json.num 1)]]).1
      ⟨[("role", Json.num 1)], List.mem_singleton.mpr rfl,
        fun hw => by
          obtain ⟨⟨r, hr⟩, _⟩ := hw
          rw [show mapGet [("role", Json.num 1)] "role" = some (Json.num 1)
            from rfl] at hr
          exact Json.noConfusion (Option.some.inj hr)⟩,
   (c9_bad_message_fields_panic "m"
      [[("role", Json.str "user"), ("content", Json.str "hi")]]).2
      (by
        intro msg hm
        rw [List.mem_singleton] at hm
        subst hm
        exact ⟨⟨"user", rfl⟩, ⟨"hi", rfl⟩⟩)⟩

end Modelplex
